import Mathlib

/-!
Verification of the todo-list tool in
`packages/core/src/tools/todo-write.ts` (validator, session store,
renderer and invocation entry point), shallowly embedded in Lean.
Strings are Lean `String`s; JavaScript string trimming is modelled at
the character-list level; the process-wide mutable state
(`currentTodos`, `mostRecentlyCompletedId`) is threaded explicitly as a
`SessionState` value.
-/

/-- A task item: `interface TodoItem` (todo-write.ts lines 16-20).
The `status` field is kept as a raw string because the validator
inspects it against the three-value enum at run time. -/
structure TodoItem where
  id : String
  content : String
  status : String
deriving DecidableEq, Repr

/-- `interface TodoWriteParams` (todo-write.ts lines 22-24). -/
structure TodoWriteParams where
  todos : List TodoItem
deriving DecidableEq, Repr

/-- The module-level mutable state (todo-write.ts lines 249-251):
`currentTodos` and `mostRecentlyCompletedId`. -/
structure SessionState where
  currentTodos : List TodoItem
  mostRecentlyCompletedId : Option String
deriving DecidableEq, Repr

/-- The JSON payload placed in `llmContent` by `execute`: either the
success object (lines 301-306) or the failure object (lines 314-317). -/
inductive LlmPayload where
  | success (message : String) (todos : List TodoItem) (summary : String)
  | failure (error : String)
deriving DecidableEq, Repr

/-- The `ToolResult` shape returned by `execute`. -/
structure ToolResult where
  llmContent : LlmPayload
  returnDisplay : String
deriving DecidableEq, Repr

/-- Whether `llmContent` carries `success: true`. -/
def payloadSuccess : LlmPayload → Bool
  | .success _ _ _ => true
  | .failure _ => false

/-- The `summary` field of a success payload. -/
def payloadSummary : LlmPayload → Option String
  | .success _ _ s => some s
  | .failure _ => none

/-- The set of characters stripped by JavaScript `String.prototype.trim`
(ECMA-262 WhiteSpace and LineTerminator code points). -/
def jsWhitespace (c : Char) : Bool :=
  c == ' ' || c == '\t' || c == '\n' || c == '\r' ||
  c == '\x0b' || c == '\x0c' || c == ' ' || c == '﻿' ||
  c == ' ' || c == ' ' || c == ' ' || c == ' ' ||
  c == ' ' || c == ' ' || c == ' ' || c == ' ' ||
  c == ' ' || c == ' ' || c == ' ' || c == ' ' ||
  c == ' ' || c == ' ' || c == ' ' || c == ' ' ||
  c == '　'

/-- JavaScript `s.trim()`: drop leading and trailing whitespace. -/
def jsTrim (s : String) : String :=
  ⟨List.rdropWhile jsWhitespace (s.data.dropWhile jsWhitespace)⟩

/-- The status glyph chosen by the `switch` in `generateTodoDisplay`
(todo-write.ts lines 339-358): an empty box for `in_progress` and for
the default (`pending`) branch, a checked box for `completed`. -/
def statusIcon (status : String) : String :=
  if status == "in_progress" then "☐"
  else if status == "completed" then "☑"
  else "☐"

/-- The styled content text chosen by the same `switch`: blue for
`in_progress`; green plus strike-through for the most recently
completed task; plain strike-through for other completed tasks; the
bare content for `pending`. -/
def formatContent (marker : Option String) (t : TodoItem) : String :=
  if t.status == "in_progress" then "\x1b[34m" ++ t.content ++ "\x1b[0m"
  else if t.status == "completed" then
    if some t.id == marker then
      "\x1b[32m\x1b[9m" ++ t.content ++ "\x1b[29m\x1b[0m"
    else "\x1b[9m" ++ t.content ++ "\x1b[29m\x1b[0m"
  else t.content

/-- One rendered item line (without the trailing newline): tree-branch
glyph, status glyph, styled content (todo-write.ts line 360). -/
def lineForStr (marker : Option String) (isLast : Bool) (t : TodoItem) : String :=
  (if isLast then "└──" else "├──") ++ " " ++ statusIcon t.status ++ " "
    ++ formatContent marker t

/-- The `todos.forEach((todo, index) => ...)` loop of
`generateTodoDisplay`: one newline-terminated line per item, where a
line is terminal exactly when its index equals `total - 1`. -/
def displayLinesAux (marker : Option String) (total : Nat) : Nat → List TodoItem → List String
  | _, [] => []
  | i, t :: rest =>
      (lineForStr marker (i == total - 1) t ++ "\n")
        :: displayLinesAux marker total (i + 1) rest

/-- `generateTodoDisplay` (todo-write.ts lines 323-364), as a function
of the submitted list and the recency marker: the fixed message for an
empty list, otherwise the header plus one line per item, trimmed. -/
def generateTodoDisplay (todos : List TodoItem) (marker : Option String) : String :=
  if todos.length = 0 then
    "📋 Todo List\n└── No todos currently tracked."
  else
    jsTrim ("📋 Todo List\n" ++ String.join (displayLinesAux marker todos.length 0 todos))

/-- `generateSummary` (todo-write.ts lines 366-376). -/
def generateSummary (todos : List TodoItem) : String :=
  toString todos.length ++ " total tasks: "
    ++ toString (todos.filter (fun t => t.status == "completed")).length ++ " completed, "
    ++ toString (todos.filter (fun t => t.status == "in_progress")).length ++ " in progress, "
    ++ toString (todos.filter (fun t => t.status == "pending")).length ++ " pending"

/-- The body of `TodoWriteInvocation.execute` (todo-write.ts lines
274-308): compute the new recency marker by diffing the stored list
against the candidate, replace the stored list, and return the success
result together with the updated session state.  The `try` block
contains only total operations (array `find`, spread copy, string
formatting), so the embedding is a total function and the `catch`
branch (lines 309-320) has no counterpart. -/
def executeTW (params : TodoWriteParams) (st : SessionState) : ToolResult × SessionState :=
  let previouslyInProgress := st.currentTodos.find? (fun t => t.status == "in_progress")
  let marker : Option String :=
    match previouslyInProgress with
    | some prior =>
        match params.todos.find? (fun t => t.id == prior.id && t.status == "completed") with
        | some nowCompleted => some nowCompleted.id
        | none => none
    | none => none
  let todoDisplay := generateTodoDisplay params.todos marker
  let summary := generateSummary params.todos
  (⟨.success "Todo list updated successfully" params.todos summary, todoDisplay⟩,
    ⟨params.todos, marker⟩)

/-- `TodoWriteTool.clearTodos` (todo-write.ts lines 462-464): it
reassigns `currentTodos = []` and touches nothing else. -/
def clearTodos (st : SessionState) : SessionState :=
  { st with currentTodos := [] }

/-- `TodoWriteTool.getCurrentTodos` (todo-write.ts lines 455-457),
value-level view: the returned array has the same elements as the
stored one (`[...currentTodos]`). -/
def getCurrentTodos (st : SessionState) : List TodoItem :=
  st.currentTodos

/-- Modelled from the spec: `SchemaValidator.validate`
(`../utils/schemaValidator.js`, not part of the analysed sources) is
"an external capability that rejects malformed shapes before domain
validation runs"; a well-typed `TodoWriteParams` value conforms to the
declared object shape, so the external check reports no error. -/
def schemaValidate (_params : TodoWriteParams) : Option String :=
  none

/-- The per-item loop of `validateToolParams` (todo-write.ts lines
410-428): for each item in order, an indexed id-error, then
content-error, then status-error; `i` is the position in the submitted
array.  For a well-typed item the JavaScript guard
`!todo.id || typeof todo.id !== 'string' || todo.id.trim() === ''`
holds exactly when the trimmed string is empty. -/
def validateItems : Nat → List TodoItem → Option String
  | _, [] => none
  | i, t :: rest =>
      if jsTrim t.id == "" then
        some ("Todo item at index " ++ toString i
          ++ " must have a non-empty \"id\" string.")
      else if jsTrim t.content == "" then
        some ("Todo item at index " ++ toString i
          ++ " must have a non-empty \"content\" string.")
      else if !(["pending", "in_progress", "completed"].contains t.status) then
        some ("Todo item at index " ++ toString i
          ++ " must have a valid \"status\" (pending, in_progress, or completed).")
      else validateItems (i + 1) rest

/-- `TodoWriteTool.validateToolParams` (todo-write.ts lines 395-446):
schema check, non-empty array, per-item checks, at most one
`in_progress`, unique ids; the first failing check wins.  The `Set`
size of the id array is its number of distinct elements,
`ids.dedup.length`. -/
def validateToolParams (params : TodoWriteParams) : Option String :=
  match schemaValidate params with
  | some errs => some errs
  | none =>
    if params.todos.length = 0 then
      some "Parameter \"todos\" must be a non-empty array."
    else
      match validateItems 0 params.todos with
      | some e => some e
      | none =>
        if 1 < (params.todos.filter (fun t => t.status == "in_progress")).length then
          some "Only one task can be \"in_progress\" at a time."
        else if (params.todos.map (fun t => t.id)).length
            ≠ (params.todos.map (fun t => t.id)).dedup.length then
          some "All todo IDs must be unique."
        else none

/-- Modelled from the spec: the invocation entry point (§4.4, the
`BaseDeclarativeTool` protocol in `tools.js`, not part of the analysed
sources) runs the validator first and, "on rejection, returns a
structured failure result carrying the violation message verbatim and
does not touch SessionState"; on approval it runs `execute`. -/
def runTool (params : TodoWriteParams) (st : SessionState) : ToolResult × SessionState :=
  match validateToolParams params with
  | some msg => (⟨.failure msg, msg⟩, st)
  | none => executeTW params st

/-- A JavaScript-style heap for the aliasing analysis of the defensive
copy: `items` maps an object address to the `TodoItem` it currently
holds, `arrays` maps an array address to the list of item addresses it
currently holds.  Mutating an object in place is a heap write; copying
an array with spread syntax allocates a new array holding the same item
addresses. -/
structure JsHeap where
  items : Nat → TodoItem
  arrays : Nat → List Nat

/-- In-place mutation of the item object at address `addr`
(for example `todo.content = ...` performed by the caller). -/
def writeItem (h : JsHeap) (addr : Nat) (v : TodoItem) : JsHeap :=
  { h with items := fun b => if b = addr then v else h.items b }

/-- In-place replacement of the contents of the array object at
address `addr` (models `push`/index assignment by the caller). -/
def writeArray (h : JsHeap) (addr : Nat) (l : List Nat) : JsHeap :=
  { h with arrays := fun b => if b = addr then l else h.arrays b }

/-- The item addresses currently stored in the array at `addr`. -/
def readArray (h : JsHeap) (addr : Nat) : List Nat :=
  h.arrays addr

/-- The task items observed by reading the array at `addr` and
dereferencing each element. -/
def viewTodos (h : JsHeap) (addr : Nat) : List TodoItem :=
  (h.arrays addr).map h.items

/-- Reference-level model of line 294,
`currentTodos = [...this.params.todos]`: a fresh array object at
address `fresh` is allocated whose contents are the same item
addresses as the caller's array at `paramsArr`; the store then refers
to the array at `fresh`. -/
def replaceStoreArray (h : JsHeap) (paramsArr fresh : Nat) : JsHeap :=
  writeArray h fresh (readArray h paramsArr)

/-- Reference-level model of line 456, `return [...currentTodos]`: the
snapshot handed to the caller is a fresh array at `fresh` holding the
same item addresses as the store's array at `storeArr`. -/
def snapshotArray (h : JsHeap) (storeArr fresh : Nat) : JsHeap :=
  writeArray h fresh (readArray h storeArr)

/-- Split a character list at newline characters, the line structure
of the rendered display (`splitOn "\n"`). -/
def lineSplit : List Char → List (List Char)
  | [] => [[]]
  | c :: rest =>
      if c = '\n' then [] :: lineSplit rest
      else
        match lineSplit rest with
        | [] => [[c]]
        | l :: ls => (c :: l) :: ls


/-- C2 (amended): `clearTodos` resets the stored list to empty but
leaves `recentlyCompletedId` unchanged — the assignment at line 463
touches only `currentTodos`. -/
theorem c2_clear_amended (st : SessionState) :
    (clearTodos st).currentTodos = [] ∧
      (clearTodos st).mostRecentlyCompletedId = st.mostRecentlyCompletedId :=
  ⟨rfl, rfl⟩

/-- C2 counterexample: starting from a state whose recency marker is
`some "a"`, `clearTodos` does not reset the marker to none, refuting
"calling the clear operation resets both parts of the state". -/
theorem c2_clear_counterexample :
    (clearTodos ⟨[⟨"a", "x", "completed"⟩], some "a"⟩).mostRecentlyCompletedId ≠ none := by
  decide

/-- C3 (amended): rendering an empty list returns a fixed message that
is independent of the recency marker, but the message has two lines (a
header line and the "No todos currently tracked." line), not one. -/
theorem c3_empty_display (marker : Option String) :
    generateTodoDisplay [] marker = "📋 Todo List\n└── No todos currently tracked."
      ∧ (lineSplit (generateTodoDisplay [] marker).data).length = 2 :=
  ⟨rfl, rfl⟩

/-- C3 counterexample: the empty-list rendering is not one line
exactly — it splits into two lines at its embedded newline. -/
theorem c3_empty_counterexample :
    (lineSplit (generateTodoDisplay [] none).data).length ≠ 1 := by
  decide

/-- C10: for every well-typed parameter list and every starting state,
`execute` returns the success payload; the `catch` branch is
unreachable because every operation in the `try` block is total on
well-typed input, so the embedding of the `try` body is a total
function. -/
theorem c10_execute_always_succeeds (params : TodoWriteParams) (st : SessionState) :
    payloadSuccess (executeTW params st).1.llmContent = true :=
  rfl

/-- C9: `generateSummary` reports exact per-status tallies in the
fixed format, and on the example two-item input the success payload's
summary is exactly "2 total tasks: 0 completed, 1 in progress, 1
pending". -/
theorem c9_summary_counts :
    (∀ todos : List TodoItem,
      generateSummary todos =
        toString todos.length ++ " total tasks: "
          ++ toString (todos.countP (fun t => t.status == "completed")) ++ " completed, "
          ++ toString (todos.countP (fun t => t.status == "in_progress")) ++ " in progress, "
          ++ toString (todos.countP (fun t => t.status == "pending")) ++ " pending")
    ∧ payloadSummary (executeTW ⟨[⟨"t1", "Write spec", "in_progress"⟩,
          ⟨"t2", "Review", "pending"⟩]⟩ ⟨[], none⟩).1.llmContent
        = some "2 total tasks: 0 completed, 1 in progress, 1 pending" := by
  constructor
  · intro todos
    simp [generateSummary, List.countP_eq_length_filter]
  · rfl

/-- C6: submitting `todos = []` fails validation with a message
containing "must be a non-empty array", and the session state after
the call is exactly the state before it. -/
theorem c6_empty_list_rejected (st : SessionState) :
    (∃ msg, (runTool ⟨[]⟩ st).1.llmContent = .failure msg
        ∧ "must be a non-empty array".data <:+: msg.data)
      ∧ (runTool ⟨[]⟩ st).2 = st := by
  refine ⟨⟨"Parameter \"todos\" must be a non-empty array.", rfl, ?_⟩, rfl⟩
  decide

/-- C1: on each `execute` call, with `prior` the first stored item
whose status is `in_progress`: if `prior` exists and the candidate
contains an item with the same id and status `completed`, the new
recency marker is that id; if `prior` exists but no such item does, the
marker is cleared; if no `prior` existed, the marker is cleared. -/
theorem c1_recency_marker (st : SessionState) (cand : List TodoItem) :
    (st.currentTodos.find? (fun t => t.status == "in_progress") = none →
      (executeTW ⟨cand⟩ st).2.mostRecentlyCompletedId = none)
    ∧ ∀ p, st.currentTodos.find? (fun t => t.status == "in_progress") = some p →
        ((∃ t ∈ cand, t.id = p.id ∧ t.status = "completed") →
          (executeTW ⟨cand⟩ st).2.mostRecentlyCompletedId = some p.id)
        ∧ ((¬ ∃ t ∈ cand, t.id = p.id ∧ t.status = "completed") →
          (executeTW ⟨cand⟩ st).2.mostRecentlyCompletedId = none) := by
  constructor
  · intro h
    simp [executeTW, h]
  · intro p hp
    constructor
    · rintro ⟨t, htmem, htid, htstat⟩
      simp only [executeTW, hp]
      cases hfind : cand.find? (fun t => t.id == p.id && t.status == "completed") with
      | none =>
          exfalso
          have := List.find?_eq_none.mp hfind t htmem
          simp [htid, htstat] at this
      | some u =>
          have hu := List.find?_some hfind
          simp only [Bool.and_eq_true, beq_iff_eq] at hu
          simp [hu.1]
    · intro hno
      simp only [executeTW, hp]
      cases hfind : cand.find? (fun t => t.id == p.id && t.status == "completed") with
      | none => simp
      | some u =>
          exfalso
          apply hno
          have humem := List.mem_of_find?_eq_some hfind
          have hu := List.find?_some hfind
          simp only [Bool.and_eq_true, beq_iff_eq] at hu
          exact ⟨u, humem, hu.1, hu.2⟩

/-- C1 witness: completing the stored in-progress task "a" sets the
recency marker to "a". -/
theorem c1_recency_marker_witness :
    (executeTW ⟨[⟨"a", "x", "completed"⟩]⟩
        ⟨[⟨"a", "x", "in_progress"⟩], none⟩).2.mostRecentlyCompletedId = some "a" :=
  ((c1_recency_marker ⟨[⟨"a", "x", "in_progress"⟩], none⟩ [⟨"a", "x", "completed"⟩]).2
      ⟨"a", "x", "in_progress"⟩ (by decide)).1
    ⟨⟨"a", "x", "completed"⟩, by decide, rfl, rfl⟩

/-- C7 (amended): for every candidate list whose ids are pairwise
distinct (as the validator guarantees for accepted lists) and every
starting state, replacing twice in a row with the same candidate
yields `recentlyCompletedId = none` after the second call. -/
theorem c7_replace_idempotent (cand : List TodoItem) (st : SessionState)
    (h : (cand.map (fun t => t.id)).Nodup) :
    (executeTW ⟨cand⟩ (executeTW ⟨cand⟩ st).2).2.mostRecentlyCompletedId = none := by
  simp only [executeTW]
  cases hp : cand.find? (fun t => t.status == "in_progress") with
  | none => simp
  | some p =>
      have hpmem := List.mem_of_find?_eq_some hp
      have hpstat := List.find?_some hp
      simp only [beq_iff_eq] at hpstat
      cases hf : cand.find? (fun t => t.id == p.id && t.status == "completed") with
      | none => simp [hf]
      | some u =>
          exfalso
          have humem := List.mem_of_find?_eq_some hf
          have hu := List.find?_some hf
          simp only [Bool.and_eq_true, beq_iff_eq] at hu
          have : u = p := List.inj_on_of_nodup_map h humem hpmem (by rw [hu.1])
          rw [this, hpstat] at hu
          exact absurd hu.2 (by decide)

/-- C7 witness: with the singleton in-progress candidate, the marker
is none after the second identical replace. -/
theorem c7_replace_idempotent_witness :
    (executeTW ⟨[⟨"a", "x", "in_progress"⟩]⟩
        (executeTW ⟨[⟨"a", "x", "in_progress"⟩]⟩ ⟨[], none⟩).2).2.mostRecentlyCompletedId
      = none :=
  c7_replace_idempotent [⟨"a", "x", "in_progress"⟩] ⟨[], none⟩ (by decide)

/-- C7 counterexample: with a candidate containing two items that share
an id (one in_progress, one completed) — a list `execute` itself never
rejects — the second identical replace sets the marker to "a", not
none, so the claim fails for arbitrary candidate lists. -/
theorem c7_counterexample :
    (executeTW ⟨[⟨"a", "x", "in_progress"⟩, ⟨"a", "y", "completed"⟩]⟩
        (executeTW ⟨[⟨"a", "x", "in_progress"⟩, ⟨"a", "y", "completed"⟩]⟩
          ⟨[], none⟩).2).2.mostRecentlyCompletedId ≠ none := by
  decide

/-- C4 (amended): the spread copies at lines 294 and 456 are shallow —
the new array is a distinct object holding the *same* item references.
Consequently (i) the store's array shares every item object with the
candidate array, (ii) later in-place mutation of the caller's array
object cannot change the store's array, and (iii) the snapshot array
returned by `getCurrentTodos` shares its item objects with the store. -/
theorem c4_shallow_copy (h : JsHeap) (paramsArr fresh storeArr fresh2 : Nat) :
    readArray (replaceStoreArray h paramsArr fresh) fresh = readArray h paramsArr
    ∧ (paramsArr ≠ fresh → ∀ l,
        readArray (writeArray (replaceStoreArray h paramsArr fresh) paramsArr l) fresh
          = readArray h paramsArr)
    ∧ readArray (snapshotArray h storeArr fresh2) fresh2 = readArray h storeArr := by
  refine ⟨?_, ?_, ?_⟩
  · simp [readArray, replaceStoreArray, writeArray]
  · intro hne l
    simp [readArray, replaceStoreArray, writeArray, Ne.symm hne]
  · simp [readArray, snapshotArray, writeArray]

/-- C4 witness: with the caller's array at address 5 holding item 0 and
the store's fresh array at address 7, overwriting the caller's array
afterwards leaves the stored array contents `[0]`. -/
theorem c4_shallow_copy_witness :
    readArray (writeArray (replaceStoreArray
        ⟨fun _ => ⟨"t1", "Write", "pending"⟩, fun a => if a = 5 then [0] else []⟩ 5 7) 5 [0, 1]) 7
      = [0] :=
  (c4_shallow_copy ⟨fun _ => ⟨"t1", "Write", "pending"⟩, fun a => if a = 5 then [0] else []⟩
      5 7 5 7).2.1 (by decide) [0, 1]

/-- C4 counterexample: the stored list is *not* insulated from mutation
of the caller's item objects.  After `replace` stores a shallow copy of
the caller's array (address 5, holding the item at address 0), mutating
that item object in place changes the todos observed through the
store's array (address 7), refuting "later mutation of ... its item
objects cannot change stored state". -/
theorem c4_counterexample :
    viewTodos (writeItem (replaceStoreArray
        ⟨fun _ => ⟨"t1", "Write", "pending"⟩, fun a => if a = 5 then [0] else []⟩ 5 7)
        0 ⟨"t1", "mutated", "pending"⟩) 7
      ≠ viewTodos (replaceStoreArray
        ⟨fun _ => ⟨"t1", "Write", "pending"⟩, fun a => if a = 5 then [0] else []⟩ 5 7) 7 := by
  decide

/-- Specification-side description (§4.1, step 2): for each item in
submission order, an indexed id-check, then content-check, then
status-check, each paired with its message. -/
def specItemChecks : Nat → List TodoItem → List (Bool × String)
  | _, [] => []
  | i, t :: rest =>
      (jsTrim t.id == "",
        "Todo item at index " ++ toString i ++ " must have a non-empty \"id\" string.")
      :: (jsTrim t.content == "",
        "Todo item at index " ++ toString i ++ " must have a non-empty \"content\" string.")
      :: (!(["pending", "in_progress", "completed"].contains t.status),
        "Todo item at index " ++ toString i
          ++ " must have a valid \"status\" (pending, in_progress, or completed).")
      :: specItemChecks (i + 1) rest

/-- Specification-side description (§4.1): the full ordered check
list — non-empty array first, then the per-item checks, then the
whole-list single-in-progress count, then the duplicate-id check
phrased through the size of the set of ids. -/
def specChecks (params : TodoWriteParams) : List (Bool × String) :=
  (decide (params.todos.length = 0), "Parameter \"todos\" must be a non-empty array.")
    :: specItemChecks 0 params.todos
    ++ [(decide (1 < params.todos.countP (fun t => t.status == "in_progress")),
          "Only one task can be \"in_progress\" at a time."),
        (decide ((params.todos.map (fun t => t.id)).toFinset.card < params.todos.length),
          "All todo IDs must be unique.")]

/-- The message of the first failing check of an ordered check list. -/
def firstFailing : List (Bool × String) → Option String
  | [] => none
  | (b, m) :: rest => if b then some m else firstFailing rest

/-- Specification-side contract: report exactly the first violation in
the fixed order of `specChecks`. -/
def specFirstViolation (params : TodoWriteParams) : Option String :=
  firstFailing (specChecks params)

lemma firstFailing_append (xs ys : List (Bool × String)) :
    firstFailing (xs ++ ys)
      = match firstFailing xs with
        | some m => some m
        | none => firstFailing ys := by
  induction xs with
  | nil => simp [firstFailing]
  | cons a rest ih =>
      obtain ⟨b, m⟩ := a
      cases b with
      | true => simp [firstFailing]
      | false => simpa [firstFailing] using ih

lemma validateItems_eq_firstFailing (todos : List TodoItem) :
    ∀ i, validateItems i todos = firstFailing (specItemChecks i todos) := by
  induction todos with
  | nil => intro i; rfl
  | cons t rest ih =>
      intro i
      simp only [validateItems, specItemChecks, firstFailing]
      rw [ih (i + 1)]

lemma firstFailing_list_append (xs ys : List (Bool × String)) :
    firstFailing (List.append xs ys)
      = match firstFailing xs with
        | some m => some m
        | none => firstFailing ys :=
  firstFailing_append xs ys

/-- C5: `validateToolParams` reports exactly the first violation in
the fixed order stated by the spec — non-empty array; per-item indexed
id, content, status checks in submission order; then the whole-list
single-in-progress check; then the duplicate-id check.  The code's
early-return chain equals the first failing entry of the
specification's ordered check list. -/
theorem c5_first_violation (params : TodoWriteParams) :
    validateToolParams params = specFirstViolation params := by
  simp only [validateToolParams, schemaValidate, specFirstViolation, specChecks]
  by_cases h0 : params.todos.length = 0
  · simp [firstFailing, h0]
  · rw [if_neg h0]
    have hfalse : decide (params.todos.length = 0) = false := decide_eq_false h0
    simp only [firstFailing, hfalse, Bool.false_eq_true, if_false]
    rw [firstFailing_list_append, ← validateItems_eq_firstFailing]
    cases hv : validateItems 0 params.todos with
    | some e => rfl
    | none =>
        simp only [firstFailing]
        have hcount : params.todos.countP (fun t => t.status == "in_progress")
            = (params.todos.filter (fun t => t.status == "in_progress")).length :=
          List.countP_eq_length_filter _ _
        have hdedup_le : (params.todos.map (fun t => t.id)).dedup.length
            ≤ (params.todos.map (fun t => t.id)).length :=
          (List.dedup_sublist _).length_le
        have hmaplen : (params.todos.map (fun t => t.id)).length = params.todos.length :=
          List.length_map _ _
        by_cases hc : 1 < (params.todos.filter (fun t => t.status == "in_progress")).length
        · simp [hc, hcount]
        · have hcd : decide (1 < params.todos.countP (fun t => t.status == "in_progress"))
              = false := by
            rw [hcount]; exact decide_eq_false hc
          simp only [hc, if_false, hcd, Bool.false_eq_true]
          by_cases hd : (params.todos.map (fun t => t.id)).length
              ≠ (params.todos.map (fun t => t.id)).dedup.length
          · have : (params.todos.map (fun t => t.id)).toFinset.card
                < params.todos.length := by
              rw [List.card_toFinset]; omega
            simp [hd, this]
            omega
          · have : ¬ (params.todos.map (fun t => t.id)).toFinset.card
                < params.todos.length := by
              rw [List.card_toFinset]; omega
            simp [hd, this]
            omega

lemma string_data_append (s t : String) : (s ++ t).data = s.data ++ t.data :=
  rfl

lemma string_join_data_aux (ls : List String) :
    ∀ acc : String, (ls.foldl (fun r s => r ++ s) acc).data
      = acc.data ++ (ls.map String.data).flatten := by
  induction ls with
  | nil => intro acc; simp
  | cons s rest ih =>
      intro acc
      rw [List.foldl_cons, ih (acc ++ s), string_data_append]
      simp [List.append_assoc]

lemma string_join_data (ls : List String) :
    (String.join ls).data = (ls.map String.data).flatten := by
  simp [String.join, string_join_data_aux ls ""]

lemma dropWhile_append_all {α : Type} (p : α → Bool) (xs ys : List α)
    (h : ∀ x ∈ xs, p x = true) :
    List.dropWhile p (xs ++ ys) = List.dropWhile p ys := by
  induction xs with
  | nil => rfl
  | cons a l ih =>
      rw [List.cons_append, List.dropWhile_cons]
      rw [h a (List.mem_cons_self a l)]
      exact ih fun x hx => h x (List.mem_cons_of_mem a hx)

lemma dropWhile_append_left {α : Type} (p : α → Bool) (xs ys : List α)
    (h : ∃ c ∈ xs, p c = false) :
    List.dropWhile p (xs ++ ys) = List.dropWhile p xs ++ ys := by
  induction xs with
  | nil =>
      rcases h with ⟨c, hc, _⟩
      cases hc
  | cons a l ih =>
      rw [List.cons_append, List.dropWhile_cons, List.dropWhile_cons]
      cases ha : p a with
      | true =>
          simp only []
          apply ih
          rcases h with ⟨c, hc, hpc⟩
          rcases List.mem_cons.mp hc with hca | hcl
          · rw [hca] at hpc; rw [hpc] at ha; cases ha
          · exact ⟨c, hcl, hpc⟩
      | false => simp

lemma rdropWhile_append_left {α : Type} (p : α → Bool) (a b : List α)
    (h : ∃ c ∈ b, p c = false) :
    List.rdropWhile p (a ++ b) = a ++ List.rdropWhile p b := by
  rcases h with ⟨c, hc, hpc⟩
  unfold List.rdropWhile
  rw [List.reverse_append,
    dropWhile_append_left p b.reverse a.reverse ⟨c, List.mem_reverse.mpr hc, hpc⟩,
    List.reverse_append, List.reverse_reverse]

lemma rdropWhile_cons_of_neg {α : Type} (p : α → Bool) (c : α) (l : List α)
    (hc : p c = false) :
    List.rdropWhile p (c :: l) = c :: List.rdropWhile p l := by
  unfold List.rdropWhile
  rw [List.reverse_cons]
  by_cases hall : ∀ x ∈ l.reverse, p x = true
  · rw [dropWhile_append_all p _ _ hall, List.dropWhile_cons, hc]
    rw [List.dropWhile_eq_nil_iff.mpr hall]
    simp
  · push_neg at hall
    rcases hall with ⟨x, hx, hpx⟩
    rw [dropWhile_append_left p _ _ ⟨x, hx, Bool.not_eq_true _ ▸ hpx⟩,
      List.reverse_append]
    simp

lemma mem_of_mem_rdropWhile {α : Type} (p : α → Bool) (c : α) (l : List α)
    (h : c ∈ List.rdropWhile p l) : c ∈ l := by
  unfold List.rdropWhile at h
  rw [List.mem_reverse] at h
  have := (List.dropWhile_suffix p).subset h
  rwa [List.mem_reverse] at this

lemma lineSplit_cons_newline (b : List Char) :
    lineSplit ('\n' :: b) = [] :: lineSplit b := by
  simp [lineSplit]

lemma lineSplit_ne_nil (a : List Char) : lineSplit a ≠ [] := by
  induction a with
  | nil => simp [lineSplit]
  | cons c rest ih =>
      by_cases hc : c = '\n'
      · simp [lineSplit, hc]
      · simp only [lineSplit, if_neg hc]
        cases h : lineSplit rest with
        | nil => simp
        | cons l ls => simp

lemma lineSplit_of_no_newline (a : List Char) (h : ('\n' : Char) ∉ a) :
    lineSplit a = [a] := by
  induction a with
  | nil => rfl
  | cons c rest ih =>
      have hc : c ≠ '\n' := fun hh => h (hh ▸ List.mem_cons_self c rest)
      have hrest : ('\n' : Char) ∉ rest := fun hh => h (List.mem_cons_of_mem c hh)
      simp only [lineSplit, if_neg hc, ih hrest]

lemma lineSplit_append_newline (a b : List Char) (h : ('\n' : Char) ∉ a) :
    lineSplit (a ++ '\n' :: b) = a :: lineSplit b := by
  induction a with
  | nil => simp [lineSplit_cons_newline]
  | cons c rest ih =>
      have hc : c ≠ '\n' := fun hh => h (hh ▸ List.mem_cons_self c rest)
      have hrest : ('\n' : Char) ∉ rest := fun hh => h (List.mem_cons_of_mem c hh)
      rw [List.cons_append]
      simp only [lineSplit, if_neg hc, ih hrest]

lemma lineSplit_flatten_lines (ls : List (List Char)) (last : List Char)
    (h : ∀ l ∈ ls, ('\n' : Char) ∉ l) (hlast : ('\n' : Char) ∉ last) :
    lineSplit ((ls.map (fun l => l ++ ['\n'])).flatten ++ last) = ls ++ [last] := by
  induction ls with
  | nil => simp [lineSplit_of_no_newline last hlast]
  | cons l rest ih =>
      have hl : ('\n' : Char) ∉ l := h l (List.mem_cons_self l rest)
      have hrest : ∀ x ∈ rest, ('\n' : Char) ∉ x :=
        fun x hx => h x (List.mem_cons_of_mem l hx)
      rw [List.map_cons, List.flatten_cons, List.append_assoc, List.append_assoc,
        show (['\n'] : List Char) ++ ((rest.map (fun l => l ++ ['\n'])).flatten ++ last)
            = '\n' :: ((rest.map (fun l => l ++ ['\n'])).flatten ++ last) from rfl,
        lineSplit_append_newline _ _ hl, ih hrest, List.cons_append]

lemma statusIcon_char (s : String) :
    ∃ c : Char, (statusIcon s).data = [c] ∧ jsWhitespace c = false := by
  unfold statusIcon
  split
  · exact ⟨'☐', by decide, by decide⟩
  · split
    · exact ⟨'☑', by decide, by decide⟩
    · exact ⟨'☐', by decide, by decide⟩

lemma no_newline_statusIcon (s : String) : ('\n' : Char) ∉ (statusIcon s).data := by
  unfold statusIcon
  split
  · decide
  · split
    · decide
    · decide

lemma no_newline_formatContent (marker : Option String) (t : TodoItem)
    (h : ('\n' : Char) ∉ t.content.data) :
    ('\n' : Char) ∉ (formatContent marker t).data := by
  unfold formatContent
  split
  · intro hmem
    simp only [string_data_append, List.mem_append] at hmem
    rcases hmem with (h1 | h2) | h3
    · exact absurd h1 (by decide)
    · exact h h2
    · exact absurd h3 (by decide)
  · split
    · split
      · intro hmem
        simp only [string_data_append, List.mem_append] at hmem
        rcases hmem with (h1 | h2) | h3
        · exact absurd h1 (by decide)
        · exact h h2
        · exact absurd h3 (by decide)
      · intro hmem
        simp only [string_data_append, List.mem_append] at hmem
        rcases hmem with (h1 | h2) | h3
        · exact absurd h1 (by decide)
        · exact h h2
        · exact absurd h3 (by decide)
    · exact h

lemma no_newline_lineForStr (marker : Option String) (isLast : Bool) (t : TodoItem)
    (h : ('\n' : Char) ∉ t.content.data) :
    ('\n' : Char) ∉ (lineForStr marker isLast t).data := by
  unfold lineForStr
  intro hmem
  simp only [string_data_append, List.mem_append] at hmem
  rcases hmem with (((h1 | h2) | h3) | h4) | h5
  · cases isLast with
    | true => exact absurd h1 (by decide)
    | false => exact absurd h1 (by decide)
  · exact absurd h2 (by decide)
  · exact no_newline_statusIcon t.status h3
  · exact absurd h4 (by decide)
  · exact no_newline_formatContent marker t h h5

lemma displayLinesAux_eq (marker : Option String) :
    ∀ (todos : List TodoItem) (i : Nat) (h : todos ≠ []),
      displayLinesAux marker (i + todos.length) i todos
        = (todos.dropLast.map (fun t => lineForStr marker false t ++ "\n"))
          ++ [lineForStr marker true (todos.getLast h) ++ "\n"] := by
  intro todos
  induction todos with
  | nil => intro i h; exact absurd rfl h
  | cons t rest ih =>
      intro i h
      cases rest with
      | nil => simp [displayLinesAux]
      | cons u rest2 =>
          have hfalse : (i == i + (t :: u :: rest2).length - 1) = false := by
            simp only [List.length_cons, beq_eq_false_iff_ne]
            omega
          have htot : i + (t :: u :: rest2).length = (i + 1) + (u :: rest2).length := by
            simp only [List.length_cons]
            omega
          rw [show displayLinesAux marker (i + (t :: u :: rest2).length) i (t :: u :: rest2)
              = (lineForStr marker (i == i + (t :: u :: rest2).length - 1) t ++ "\n")
                :: displayLinesAux marker (i + (t :: u :: rest2).length) (i + 1) (u :: rest2)
              from rfl]
          rw [hfalse, htot, ih (i + 1) (by simp)]
          simp [List.dropLast_cons₂, List.getLast_cons]

lemma jsTrim_data (s : String) :
    (jsTrim s).data = List.rdropWhile jsWhitespace (s.data.dropWhile jsWhitespace) :=
  rfl

lemma string_data_nl : ("\n" : String).data = ['\n'] :=
  rfl

lemma dropWhile_cons_of_neg {α : Type} (p : α → Bool) (c : α) (l : List α)
    (hc : p c = false) : List.dropWhile p (c :: l) = c :: l := by
  rw [List.dropWhile_cons, hc]
  simp

lemma header_cons (x : List Char) :
    ("📋 Todo List\n" : String).data ++ x = '📋' :: ((" Todo List\n" : String).data ++ x) :=
  rfl

lemma lineForStr_has_nonws (marker : Option String) (b : Bool) (t : TodoItem) :
    ∃ c ∈ (lineForStr marker b t).data, jsWhitespace c = false := by
  obtain ⟨c, hc, hws⟩ := statusIcon_char t.status
  refine ⟨c, ?_, hws⟩
  unfold lineForStr
  simp [string_data_append, hc]

lemma generateTodoDisplay_data (marker : Option String) (todos : List TodoItem)
    (h : todos ≠ []) :
    (generateTodoDisplay todos marker).data
      = ("📋 Todo List\n" : String).data
        ++ ((todos.dropLast.map (fun t => (lineForStr marker false t).data ++ ['\n'])).flatten
          ++ List.rdropWhile jsWhitespace ((lineForStr marker true (todos.getLast h)).data)) := by
  have hlen : ¬ todos.length = 0 := fun hl => h (List.length_eq_zero.mp hl)
  rw [generateTodoDisplay, if_neg hlen]
  rw [show todos.length = 0 + todos.length from (Nat.zero_add _).symm]
  rw [displayLinesAux_eq marker todos 0 h]
  rw [jsTrim_data, string_data_append, string_join_data]
  simp only [List.map_append, List.map_map, List.map_cons, List.map_nil,
    List.flatten_append, List.flatten_cons, List.flatten_nil, List.append_nil,
    Function.comp_def, string_data_append, string_data_nl]
  rw [header_cons, dropWhile_cons_of_neg _ _ _ (by decide), ← header_cons]
  obtain ⟨c0, hc0mem, hc0⟩ := lineForStr_has_nonws marker true (todos.getLast h)
  rw [← List.append_assoc, ← List.append_assoc]
  rw [show (("📋 Todo List\n" : String).data
        ++ (todos.dropLast.map
            (fun t => (lineForStr marker false t).data ++ ['\n'])).flatten)
        ++ (lineForStr marker true (todos.getLast h)).data ++ ['\n']
      = (("📋 Todo List\n" : String).data
        ++ (todos.dropLast.map
            (fun t => (lineForStr marker false t).data ++ ['\n'])).flatten)
        ++ ((lineForStr marker true (todos.getLast h)).data ++ ['\n'])
      from by rw [List.append_assoc]]
  rw [rdropWhile_append_left _ _ _ ⟨c0, List.mem_append.mpr (Or.inl hc0mem), hc0⟩]
  rw [List.rdropWhile_concat_pos _ _ '\n' (by decide)]
  rw [List.append_assoc]

lemma branch_space_append (x : List Char) :
    ("└──" : String).data ++ ((" " : String).data ++ x) = ("└── " : String).data ++ x := by
  rw [← List.append_assoc]
  rfl

lemma header_split (x : List Char) :
    ("📋 Todo List\n" : String).data ++ x = ("📋 Todo List" : String).data ++ '\n' :: x :=
  rfl

/-- C8 (amended): for every non-empty list whose item contents contain
no newline character, the rendered display splits into the header line
followed by exactly one line per item, in input order; every non-last
item line is exactly the continuing-branch line for the corresponding
item, and the last line starts with the terminal branch glyph followed
by the item's status glyph (its tail may lose trailing whitespace to
the final trim); completed items get the checked-box glyph and pending
and in_progress items the empty-box glyph. -/
theorem c8_display_structure (todos : List TodoItem) (marker : Option String)
    (h1 : todos ≠ [])
    (h2 : ∀ t ∈ todos, ('\n' : Char) ∉ t.content.data) :
    ∃ ls : List (List Char),
      lineSplit (generateTodoDisplay todos marker).data
          = ("📋 Todo List" : String).data :: ls
        ∧ ls.length = todos.length
        ∧ (∀ i (hi : i < todos.length) (hi' : i < ls.length),
            (i < todos.length - 1 →
              ls.get ⟨i, hi'⟩ = (lineForStr marker false (todos.get ⟨i, hi⟩)).data)
            ∧ (i = todos.length - 1 →
              ∃ rest, ls.get ⟨i, hi'⟩
                = ("└── " : String).data
                  ++ ((statusIcon (todos.get ⟨i, hi⟩).status).data ++ rest)))
        ∧ statusIcon "completed" = "☑"
        ∧ statusIcon "in_progress" = "☐"
        ∧ statusIcon "pending" = "☐" := by
  have hpos : 0 < todos.length := List.length_pos.mpr h1
  refine ⟨(todos.dropLast.map (fun t => (lineForStr marker false t).data))
      ++ [List.rdropWhile jsWhitespace ((lineForStr marker true (todos.getLast h1)).data)],
    ?_, ?_, ?_, rfl, rfl, rfl⟩
  · rw [generateTodoDisplay_data marker todos h1, header_split,
      lineSplit_append_newline _ _ (by decide)]
    congr 1
    rw [show todos.dropLast.map (fun t => (lineForStr marker false t).data ++ ['\n'])
          = (todos.dropLast.map (fun t => (lineForStr marker false t).data)).map
              (fun l => l ++ ['\n'])
        from by rw [List.map_map]; rfl]
    rw [lineSplit_flatten_lines]
    · intro l hl
      obtain ⟨t, ht, rfl⟩ := List.mem_map.mp hl
      have htodos : t ∈ todos := by
        rw [List.dropLast_eq_take] at ht
        exact List.take_subset _ _ ht
      exact no_newline_lineForStr marker false t (h2 t htodos)
    · intro hmem
      have := mem_of_mem_rdropWhile _ _ _ hmem
      exact no_newline_lineForStr marker true (todos.getLast h1)
        (h2 _ (List.getLast_mem h1)) this
  · simp only [List.length_append, List.length_map, List.length_dropLast,
      List.length_singleton]
    omega
  · intro i hi hi'
    constructor
    · intro hlt
      have hmap : i < (todos.dropLast.map (fun t => (lineForStr marker false t).data)).length := by
        simp only [List.length_map, List.length_dropLast]
        omega
      rw [List.get_eq_getElem, List.getElem_append_left hmap, List.getElem_map,
        List.getElem_dropLast, List.get_eq_getElem]
    · intro heq
      subst heq
      have hmaplen : (todos.dropLast.map (fun t => (lineForStr marker false t).data)).length
          = todos.length - 1 := by
        simp only [List.length_map, List.length_dropLast]
      obtain ⟨c, hc, hws⟩ := statusIcon_char (todos.getLast h1).status
      have hdata : (lineForStr marker true (todos.getLast h1)).data
          = ("└── " : String).data
            ++ ([c] ++ ((" " ++ formatContent marker (todos.getLast h1)).data)) := by
        unfold lineForStr
        rw [if_pos rfl, string_data_append, string_data_append, string_data_append,
          string_data_append, hc]
        simp only [List.append_assoc]
        rw [branch_space_append]
        rfl
      have hle : (todos.dropLast.map (fun t => (lineForStr marker false t).data)).length
          ≤ todos.length - 1 :=
        le_of_eq hmaplen
      have hlastget : (todos.dropLast.map (fun t => (lineForStr marker false t).data)
            ++ [List.rdropWhile jsWhitespace
              ((lineForStr marker true (todos.getLast h1)).data)]).get
            ⟨todos.length - 1, hi'⟩
          = List.rdropWhile jsWhitespace
              ((lineForStr marker true (todos.getLast h1)).data) := by
        rw [List.get_eq_getElem, List.getElem_append_right hle]
        simp [hmaplen]
      rw [hlastget, hdata,
        rdropWhile_append_left _ _ _ ⟨c, List.mem_append.mpr (Or.inl (by simp)), hws⟩,
        show ([c] : List Char)
            ++ ((" " ++ formatContent marker (todos.getLast h1)).data)
          = c :: ((" " ++ formatContent marker (todos.getLast h1)).data) from rfl,
        rdropWhile_cons_of_neg _ _ _ hws]
      refine ⟨List.rdropWhile jsWhitespace
        ((" " ++ formatContent marker (todos.getLast h1)).data), ?_⟩
      have hicon : (statusIcon (todos.get ⟨todos.length - 1, hi⟩).status).data = [c] := by
        rw [show todos.get ⟨todos.length - 1, hi⟩ = todos.getLast h1 from ?_]
        · exact hc
        · rw [List.getLast_eq_getElem, List.get_eq_getElem]
      rw [hicon]
      rfl

/-- C8 witness: the amended display-structure theorem applied to the
concrete two-item list (one completed, one pending). -/
theorem c8_display_structure_witness :
    ∃ ls : List (List Char),
      lineSplit (generateTodoDisplay
          [⟨"t1", "Do", "completed"⟩, ⟨"t2", "Go", "pending"⟩] none).data
          = ("📋 Todo List" : String).data :: ls
        ∧ ls.length = ([⟨"t1", "Do", "completed"⟩, ⟨"t2", "Go", "pending"⟩] : List TodoItem).length
        ∧ (∀ i (hi : i < ([⟨"t1", "Do", "completed"⟩, ⟨"t2", "Go", "pending"⟩] : List TodoItem).length)
            (hi' : i < ls.length),
            (i < ([⟨"t1", "Do", "completed"⟩, ⟨"t2", "Go", "pending"⟩] : List TodoItem).length - 1 →
              ls.get ⟨i, hi'⟩ = (lineForStr none false
                (([⟨"t1", "Do", "completed"⟩, ⟨"t2", "Go", "pending"⟩] : List TodoItem).get
                  ⟨i, hi⟩)).data)
            ∧ (i = ([⟨"t1", "Do", "completed"⟩, ⟨"t2", "Go", "pending"⟩] : List TodoItem).length - 1 →
              ∃ rest, ls.get ⟨i, hi'⟩
                = ("└── " : String).data
                  ++ ((statusIcon (([⟨"t1", "Do", "completed"⟩,
                      ⟨"t2", "Go", "pending"⟩] : List TodoItem).get ⟨i, hi⟩).status).data
                    ++ rest)))
        ∧ statusIcon "completed" = "☑"
        ∧ statusIcon "in_progress" = "☐"
        ∧ statusIcon "pending" = "☐" :=
  c8_display_structure [⟨"t1", "Do", "completed"⟩, ⟨"t2", "Go", "pending"⟩] none
    (by decide) (by decide)

/-- C8 counterexample: an item content may contain a newline, and then
the display does not have one line per item — a single-item list
renders as three lines (one header line plus two lines for the item),
where the claim's reading admits only two. -/
theorem c8_counterexample :
    (lineSplit (generateTodoDisplay [⟨"a", "x\ny", "pending"⟩] none).data).length ≠ 2 := by
  decide
